import Mathlib

/-!
Shallow embedding of `src/flippy.py` (flip-book generator from videos and
animated GIFs): the geometry planning and pagination loop of
`FlipbookCreator.process`, the surrounding temporary-file and error
behaviour, and the argument handling of `main`.  Python floats are
modelled by rationals, Python `int()` by truncation toward zero, and the
external collaborators (moviepy decoder/transcoder, PIL, FPDF sink,
filesystem) by an oracle recording which external calls succeed.
-/

namespace Flippy

/-- Python float pair, `class Size` (src/flippy.py lines 17-32). -/
structure Size where
  width : ℚ
  height : ℚ
deriving DecidableEq

/-- Python class `Margin` (lines 46-56): top, right, bottom, left. -/
structure Margin where
  top : ℚ
  right : ℚ
  bottom : ℚ
  left : ℚ
deriving DecidableEq

/-- Python `int()` applied to a float: truncation toward zero. -/
def pyInt (q : ℚ) : ℤ := if 0 ≤ q then ⌊q⌋ else -⌊-q⌋

/-- Python `str.lower()` on one ASCII character. -/
def lowerChar (c : Char) : Char :=
  if 'A' ≤ c ∧ c ≤ 'Z' then Char.ofNat (c.toNat + 32) else c

/-- Python `str.lower()` (ASCII; paper-format keys are ASCII). -/
def pyLower (s : String) : String := String.mk (s.data.map lowerChar)

/-- Model of `FlipbookCreator.PAPER_SIZES` (lines 78-84), the fixed paper catalog;
a missing key is a Python `KeyError`, modelled as `none`. -/
def PAPER_SIZES : String → Option Size
  | "a5" => some ⟨210, 148⟩
  | "a4" => some ⟨297, 210⟩
  | "a3" => some ⟨420, 297⟩
  | "letter" => some ⟨279.4, 215.9⟩
  | "legal" => some ⟨355.6, 215.9⟩
  | _ => none

/-- Model of `FlipbookCreator.PAPER_CHOICES = PAPER_SIZES.keys()` (line 85),
used by argparse as the admissible values of `--paper` (line 253). -/
def PAPER_CHOICES : List String := ["a5", "a4", "a3", "letter", "legal"]

/-- The static layout quantities computed at the top of `process`
(lines 147-155), before the frame loop: printable area, physical frame
size `frame_mm`, physical cell size `total`, pixel frame size `frame`,
and the tile counts `nx`, `ny`. -/
structure TilingPlan where
  printable_area : Size
  frame_mm : Size
  total : Size
  frame : ℤ × ℤ
  nx : ℤ
  ny : ℤ
deriving DecidableEq

/-- Lines 147-155 of `process`: look up the paper size
(`PAPER_SIZES[paper_format.lower()]`, a `KeyError` -> `none` on an
unknown key), subtract the margins, derive the physical frame size from
the desired height and the aspect ratio of the clip, add the binding offset
to obtain the cell size, convert the frame size to pixels with `int()`,
and truncate the printable-area/cell ratios to the tile counts.
No further validation is performed by the source. -/
def planGeometry (paper_format : String) (margins : Margin)
    (height_mm offset dpi : ℚ) (clip_size : Size) : Option TilingPlan :=
  match PAPER_SIZES (pyLower paper_format) with
  | none => none
  | some paper =>
    let printable_area : Size :=
      ⟨paper.width - margins.left - margins.right,
       paper.height - margins.top - margins.bottom⟩
    let frame_mm : Size :=
      ⟨height_mm / clip_size.height * clip_size.width, height_mm⟩
    let total : Size := ⟨offset + frame_mm.width, frame_mm.height⟩
    let frame : ℤ × ℤ :=
      (pyInt (frame_mm.width / 25.4 * dpi), pyInt (frame_mm.height / 25.4 * dpi))
    let nx := pyInt (printable_area.width / total.width)
    let ny := pyInt (printable_area.height / total.height)
    some ⟨printable_area, frame_mm, total, frame, nx, ny⟩

/-- One observable command emitted to the PDF sink during the frame loop
(lines 197-237): an image placement (with frame index, page counter and
tile coordinates), a raster-grid drawing (`draw_raster()`), a page break
(`pdf.add_page()`), or a rotated frame-number label (`pdf.text`). -/
inductive Ev where
  | place (i : ℕ) (page tx ty : ℤ) (x y : ℚ)
  | raster (page : ℤ)
  | addPage (page : ℤ)
  | label (i : ℕ)
deriving DecidableEq

/-- The mutable state of the frame loop of `process`: frame index `i`,
page counter `page`, tile coordinates `tx`, `ty` (lines 185-187), the
placement coordinates `x`, `y` — `none` until their first assignment
inside the loop (lines 222-223) — the sequence of sink commands emitted
so far, and the `(page, tx, ty)` names of the per-tile temporary files
appended to `tmp_files` (lines 219-221). -/
structure LoopState where
  i : ℕ
  page : ℤ
  tx : ℤ
  ty : ℤ
  xy : Option (ℚ × ℚ)
  events : List Ev
  tmp : List (ℤ × ℤ × ℤ)
deriving DecidableEq

/-- Lines 185-187: `i = 0`, `page = 0`, `tx, ty = -1, 0`; no command
emitted, no per-tile temporary file yet, `x`/`y` unassigned. -/
def initState : LoopState := ⟨0, 0, -1, 0, none, [], []⟩

/-- One iteration of the frame loop (lines 197-234): increment `tx`;
on `tx == nx` reset it and increment `ty`; on `ty == ny` reset it, draw
the raster grid of the just-completed page and start a new page; save
the resampled frame as `tmp-{page}-{tx}-{ty}.png`; place the image at
`(x0 + tx*total.width, y0 + ty*total.height)` (plus the binding offset
for the image itself); emit the frame-number label when `offset > 0`;
increment `i`. -/
def stepFrame (nx ny : ℤ) (x0 y0 cw ch offset : ℚ) (s : LoopState) : LoopState :=
  let tx1 := s.tx + 1
  let roll : ℤ × ℤ × ℤ × List Ev :=
    if tx1 = nx then
      if s.ty + 1 = ny then
        (0, 0, s.page + 1, [Ev.raster s.page, Ev.addPage (s.page + 1)])
      else
        (0, s.ty + 1, s.page, [])
    else
      (tx1, s.ty, s.page, [])
  match roll with
  | (tx2, ty2, page2, evs) =>
    let x : ℚ := x0 + (tx2 : ℚ) * cw
    let y : ℚ := y0 + (ty2 : ℚ) * ch
    { i := s.i + 1
      page := page2
      tx := tx2
      ty := ty2
      xy := some (x, y)
      events := s.events ++ evs ++ [Ev.place s.i page2 tx2 ty2 x y]
        ++ (if 0 < offset then [Ev.label s.i] else [])
      tmp := s.tmp ++ [(page2, tx2, ty2)] }

/-- The frame loop run on the first `n` frames of the source, starting
from `initState`; `cw`/`ch` are the cell sizes `total.width` and
`total.height`, `x0`/`y0` the printable-area origin `(margins.left,
margins.top)` (line 188). -/
def runFrames (nx ny : ℤ) (x0 y0 cw ch offset : ℚ) : ℕ → LoopState
  | 0 => initState
  | n + 1 => stepFrame nx ny x0 y0 cw ch offset (runFrames nx ny x0 y0 cw ch offset n)

/-- Lines 236-237, after the loop: `if y != 0 and x != 0: draw_raster()`.
Reading `y` raises the Python unbound-local error when the loop body never
ran, since `x` and `y` are assigned only inside the loop; otherwise the
trailing raster grid is drawn when the condition holds. -/
def endEvents (s : LoopState) : Except String (List Ev) :=
  match s.xy with
  | none => Except.error "UnboundLocalError"
  | some (x, y) =>
    Except.ok (s.events ++ if y ≠ 0 ∧ x ≠ 0 then [Ev.raster s.page] else [])

/-- Concatenation of per-frame blocks `f 0 ++ f 1 ++ ... ++ f (n-1)`,
in loop order. -/
def catBlocks {α : Type} (f : ℕ → List α) : ℕ → List α
  | 0 => []
  | n + 1 => catBlocks f n ++ f n

/-- Closed form of the sink commands the loop emits for frame `j`
(0-based), with tile counts `a = nx`, `b = ny`: a raster grid and a page
break exactly when `j` is a positive multiple of `a*b`, then the
placement of frame `j` at its row-major cell, then the label when
`offset > 0`. -/
def frameBlock (a b : ℕ) (x0 y0 cw ch offset : ℚ) (j : ℕ) : List Ev :=
  (if j ≠ 0 ∧ j % (a * b) = 0 then
    [Ev.raster ((j / (a * b) : ℕ) - 1 : ℤ), Ev.addPage (j / (a * b) : ℕ)]
  else []) ++
  [Ev.place j (j / (a * b) : ℕ) (j % a : ℕ) (j / a % b : ℕ)
    (x0 + ((j % a : ℕ) : ℚ) * cw) (y0 + ((j / a % b : ℕ) : ℚ) * ch)] ++
  (if 0 < offset then [Ev.label j] else [])

/-- Closed form of the temporary-file name recorded for frame `j`. -/
def tmpBlock (a b : ℕ) (j : ℕ) : List (ℤ × ℤ × ℤ) :=
  [((j / (a * b) : ℕ), (j % a : ℕ), (j / a % b : ℕ))]

/-- The image placements of a command sequence, in emission order:
frame index, page, tile column, tile row. -/
def places (evs : List Ev) : List (ℕ × ℤ × ℤ × ℤ) :=
  evs.filterMap fun e =>
    match e with
    | Ev.place i page tx ty _ _ => some (i, page, tx, ty)
    | _ => none

/-- The pages whose raster grid is drawn, in emission order. -/
def rasterPages (evs : List Ev) : List ℤ :=
  evs.filterMap fun e =>
    match e with
    | Ev.raster p => some p
    | _ => none

/-- A temporary file created during a run: the transcoded video
`tmp.mp4` (line 138) or a per-tile image `tmp-{page}-{tx}-{ty}.png`
(line 219). -/
inductive TmpFile where
  | transcodedVideo
  | tileImage (page tx ty : ℤ)
deriving DecidableEq

/-- The two media types behind the frame source: a video clip with its
native frame rate (`self.clip`, line 107), or an animated GIF
(`self.frames`, line 95). -/
inductive SourceKind where
  | video (nativeFps : ℚ)
  | gif
deriving DecidableEq

/-- Behaviour of the external collaborators during one run: the native
pixel size of the clip, whether `clip.write_videofile` succeeds, how many
frames the decoder yields before the stream ends, whether the stream
ends in a decode error (rather than normal exhaustion), and whether
`pdf.output` succeeds. -/
structure Oracle where
  clipSize : Size
  transcodeOk : Bool
  decoded : ℕ
  decodeFailed : Bool
  saveOk : Bool
deriving DecidableEq

/-- The keyword arguments of `FlipbookCreator.process` (lines 113-120). -/
structure Args where
  output_file_name : String
  dpi : ℚ
  offset : ℚ
  fps : ℚ
  height_mm : ℚ
  margins : Margin
  paper_format : String
deriving DecidableEq

/-- How a run of `process` ends: normal completion, `KeyError` from the
paper lookup (line 147), the unbound-local error of line 236, a
transcoding failure (line 138), a decode failure from `iter_frames`, or
an output failure from `pdf.output` (line 241). -/
inductive Outcome where
  | ok
  | keyError
  | unboundLocalError
  | transcodeError
  | decodeError
  | outputError
deriving DecidableEq

/-- Observable result of a run of `process`: how it ended, which
temporary files are still on disk when it ends, whether transcoding was
attempted, and how many frames were placed. -/
structure ProcResult where
  outcome : Outcome
  filesLeft : List TmpFile
  transcoded : Bool
  framesPlaced : ℕ
deriving DecidableEq

/-- Lines 147-245 of `process`, from the paper lookup on: plan the
geometry (`KeyError` on an unknown paper key, with any transcoded file
still on disk), run the frame loop over the decoded frames, fail with
the decoder if the stream ended in a decode error, evaluate the trailing
raster condition (unbound-local error when no frame was processed),
write the PDF, and only after a successful `pdf.output` remove the files
accumulated in `tmp_files` (lines 244-245).  Every failure branch
returns with the files accumulated so far still on disk, because the
cleanup loop is only reached on the normal path. -/
def processGeom (transFiles : List TmpFile) (didTranscode : Bool)
    (orc : Oracle) (a : Args) : ProcResult :=
  match planGeometry a.paper_format a.margins a.height_mm a.offset a.dpi orc.clipSize with
  | none =>
    { outcome := Outcome.keyError, filesLeft := transFiles,
      transcoded := didTranscode, framesPlaced := 0 }
  | some p =>
    let s := runFrames p.nx p.ny a.margins.left a.margins.top
      p.total.width p.total.height a.offset orc.decoded
    let files := transFiles ++ s.tmp.map (fun t => TmpFile.tileImage t.1 t.2.1 t.2.2)
    if orc.decodeFailed then
      { outcome := Outcome.decodeError, filesLeft := files,
        transcoded := didTranscode, framesPlaced := s.i }
    else
      match s.xy with
      | none =>
        { outcome := Outcome.unboundLocalError, filesLeft := files,
          transcoded := didTranscode, framesPlaced := s.i }
      | some _ =>
        if orc.saveOk then
          { outcome := Outcome.ok, filesLeft := [],
            transcoded := didTranscode, framesPlaced := s.i }
        else
          { outcome := Outcome.outputError, filesLeft := files,
            transcoded := didTranscode, framesPlaced := s.i }

/-- Model of `FlipbookCreator.process` (lines 113-245).  For a video source whose
native rate differs from the `fps` argument, lines 134-142 first
re-encode the clip to `tmp.mp4` (recorded in `tmp_files`) before
anything else; a transcode failure aborts the run there (the possibly
partially written `tmp.mp4` is not modelled).  Then the geometry is
planned and the frame loop runs (`processGeom`). -/
def process (kind : SourceKind) (orc : Oracle) (a : Args) : ProcResult :=
  match kind with
  | SourceKind.video nativeFps =>
    if a.fps ≠ nativeFps then
      if orc.transcodeOk then
        processGeom [TmpFile.transcodedVideo] true orc a
      else
        { outcome := Outcome.transcodeError, filesLeft := [],
          transcoded := true, framesPlaced := 0 }
    else
      processGeom [] false orc a
  | SourceKind.gif => processGeom [] false orc a

/-- One PIL operation applied to a decoded frame inside the loop. -/
inductive ImgOp where
  | putpalette
  | pasteComposite
  | convertRGBA
  | fromarray
  | thumbnail (w h : ℤ)
deriving DecidableEq

/-- Lines 204-210: the per-frame image pipeline before the frame is
saved to its temporary file.  A GIF frame gets its palette restored, is
pasted onto the running composite and converted to RGBA; a video frame
is built with `Image.fromarray` and resized with
`im.thumbnail(frame.to_tuple())` to fit within the planned pixel size. -/
def convertFrame (kind : SourceKind) (framePx : ℤ × ℤ) : List ImgOp :=
  match kind with
  | SourceKind.gif => [ImgOp.putpalette, ImgOp.pasteComposite, ImgOp.convertRGBA]
  | SourceKind.video _ => [ImgOp.fromarray, ImgOp.thumbnail framePx.1 framePx.2]

/-- Whether an image operation resamples the frame to the planned pixel
size; only `thumbnail` does. -/
def isResample : ImgOp → Bool
  | ImgOp.thumbnail _ _ => true
  | _ => false

/-- The command-line arguments parsed by `main` (lines 249-258). -/
structure CliArgs where
  video : String
  out : String
  height : ℚ
  paper : String
  offset : ℚ
  phena : Bool
  dpi : ℚ
  fps : ℚ
deriving DecidableEq

/-- How `main` ends before/with the call to `process`: an argparse
rejection (`--paper` outside `choices`, exit status 2, before the
source file is opened), the `--phena` "not supported" exit (line 263,
status 1), or a call to `process` with the arguments of lines 268-274. -/
inductive MainResult where
  | argparseError
  | phenaExit
  | ran (a : Args)
deriving DecidableEq

/-- Model of `main` (lines 248-274): argparse validates `--paper` against
`PAPER_CHOICES` before any other work; `--phena` exits with status 1;
otherwise `FlipbookCreator.process` is called with `paper_format`,
`output_file_name`, `height_mm`, `dpi` and `offset` from the parsed
arguments — and with nothing else, so `fps` and `margins` keep the
defaults of line 117 and line 119 (`fps=10`,
`margins=Margin(10, 10, 10, 10)`); in particular the parsed `--fps`
value (line 257) is never forwarded. -/
def mainRun (c : CliArgs) (kind : SourceKind) (orc : Oracle) :
    MainResult × Option ProcResult :=
  if c.paper ∈ PAPER_CHOICES then
    if c.phena then (MainResult.phenaExit, none)
    else
      let a : Args :=
        { output_file_name := c.out, dpi := c.dpi, offset := c.offset,
          fps := 10, height_mm := c.height, margins := ⟨10, 10, 10, 10⟩,
          paper_format := c.paper }
      (MainResult.ran a, some (process kind orc a))
  else (MainResult.argparseError, none)

/-- Modelled from the spec: the componentwise nearest-integer rounding
`round(frame_mm / 25.4 * dpi)` that the specification prescribes for the
pixel frame size (the source instead applies `int()`); used only to
compare the specified computation with the one of `planGeometry`. -/
def specRound (q : ℚ) : ℤ := ⌊q + 1 / 2⌋

/-- Modelled from the spec: the specified pixel frame size. -/
def frame_px_spec (frame_mm : Size) (dpi : ℚ) : ℤ × ℤ :=
  (specRound (frame_mm.width / 25.4 * dpi), specRound (frame_mm.height / 25.4 * dpi))

/-! ### Concrete runs used when settling the claims -/

/-- The tiling plan the source computes for `--paper a4 --height 30
--offset 15 --dpi 200` with a 16:9 source (the defaults of `main`). -/
def planA4 : TilingPlan :=
  ⟨⟨277, 190⟩, ⟨160 / 3, 30⟩, ⟨205 / 3, 30⟩, (419, 236), 4, 6⟩

/-- The `process` arguments `main` builds from its default command line
(lines 268-274): only `paper_format`, `output_file_name`, `height_mm`,
`dpi` and `offset` come from argparse; `fps` and `margins` are the
defaults of lines 117 and 119. -/
def stdArgs : Args := ⟨"flip-book.pdf", 200, 15, 10, 30, ⟨10, 10, 10, 10⟩, "a4"⟩

/-- A command line passing `--fps 25` and otherwise the defaults. -/
def c1Cli : CliArgs := ⟨"video.mp4", "flip-book.pdf", 30, "a4", 15, false, 200, 25⟩

/-- A well-behaved 16:9 source yielding two frames. -/
def c1Oracle : Oracle := ⟨⟨16, 9⟩, true, 2, false, true⟩

/-- Arguments for `process` with `height_mm = 300`: the frame is taller than
the printable area, so `nx = ny = 0`. -/
def c2Args : Args := ⟨"flip-book.pdf", 200, 15, 10, 300, ⟨10, 10, 10, 10⟩, "a4"⟩

/-- A well-behaved 16:9 source yielding one frame. -/
def c2Oracle : Oracle := ⟨⟨16, 9⟩, true, 1, false, true⟩

/-- One decoded frame, and `pdf.output` fails. -/
def c3Oracle : Oracle := ⟨⟨16, 9⟩, true, 1, false, false⟩

/-- Three decoded frames, everything external succeeds. -/
def c3OkOracle : Oracle := ⟨⟨16, 9⟩, true, 3, false, true⟩

/-- A source whose frame iterator yields no frame at all. -/
def c10Oracle : Oracle := ⟨⟨16, 9⟩, true, 0, false, true⟩

/-- A command line with `--paper bogus`. -/
def c9Cli : CliArgs := ⟨"video.mp4", "flip-book.pdf", 30, "bogus", 15, false, 200, 10⟩

/-! ### Arithmetic helpers for the pagination closed form -/

theorem succ_mod_eq (q c : ℕ) (hc : 1 ≤ c) :
    (q + 1) % c = if q % c + 1 = c then 0 else q % c + 1 := by
  have h0 : (q + 1) % c = (q % c + 1) % c := by
    conv_lhs => rw [← Nat.mod_add_mod]
  by_cases h : q % c + 1 = c
  · rw [h0, if_pos h, h, Nat.mod_self]
  · have hlt : q % c < c := Nat.mod_lt _ (by omega)
    rw [h0, Nat.mod_eq_of_lt (by omega), if_neg h]

theorem succ_div_eq (q c : ℕ) (hc : 1 ≤ c) :
    (q + 1) / c = if q % c + 1 = c then q / c + 1 else q / c := by
  have hd := Nat.div_add_mod q c
  by_cases h : q % c + 1 = c
  · have : q + 1 = (q / c + 1) * c := by
      calc q + 1 = c * (q / c) + (q % c + 1) := by omega
      _ = (q / c + 1) * c := by rw [h]; ring
    rw [this, Nat.mul_div_cancel _ (by omega : 0 < c), if_pos h]
  · have hlt : q % c < c := Nat.mod_lt _ (by omega)
    have h1 : q + 1 = (q % c + 1) + c * (q / c) := by omega
    rw [h1, Nat.add_mul_div_left _ _ (by omega : 0 < c),
      Nat.div_eq_of_lt (by omega), if_neg h]
    omega

theorem mod_mul_split (j a b : ℕ) (ha : 1 ≤ a) (_hb : 1 ≤ b) :
    j % (a * b) = 0 ↔ j % a = 0 ∧ j / a % b = 0 := by
  constructor
  · intro h
    have hdvd : a * b ∣ j := Nat.dvd_of_mod_eq_zero h
    obtain ⟨k, hk⟩ := hdvd
    constructor
    · rw [hk, show a * b * k = a * (b * k) from by ring]
      exact Nat.mul_mod_right a (b * k)
    · rw [hk, show a * b * k = a * (b * k) from by ring,
        Nat.mul_div_cancel_left _ (by omega : 0 < a)]
      exact Nat.mul_mod_right b k
  · rintro ⟨h1, h2⟩
    obtain ⟨q, hq⟩ := Nat.dvd_of_mod_eq_zero h1
    have h2' : q % b = 0 := by
      rw [hq, Nat.mul_div_cancel_left _ (by omega : 0 < a)] at h2
      exact h2
    obtain ⟨r, hr⟩ := Nat.dvd_of_mod_eq_zero h2'
    have hj : j = a * b * r := by rw [hq, hr]; ring
    rw [hj]
    exact Nat.mul_mod_right (a * b) r

theorem ratCast_intCast_natMod (m a : ℕ) :
    (((m : ℤ) % (a : ℤ) : ℤ) : ℚ) = ((m % a : ℕ) : ℚ) := by
  norm_cast

theorem ratCast_intCast_natDivMod (m a b : ℕ) :
    (((m : ℤ) / (a : ℤ) % (b : ℤ) : ℤ) : ℚ) = ((m / a % b : ℕ) : ℚ) := by
  norm_cast

/-! ### Closed form of the frame loop -/

/-- Closed form of the loop state after `m + 1` frames with tile counts
`nx = a ≥ 1`, `ny = b ≥ 1`: frame `j` lands on page `j / (a*b)` at tile
column `j % a` and tile row `j / a % b`; the emitted command sequence is
the concatenation of the per-frame blocks, and the temporary-file list
records one entry per frame. -/
theorem runFrames_closed (a b : ℕ) (ha : 1 ≤ a) (hb : 1 ≤ b)
    (x0 y0 cw ch off : ℚ) (m : ℕ) :
    runFrames (a : ℤ) (b : ℤ) x0 y0 cw ch off (m + 1) =
      { i := m + 1
        page := (m / (a * b) : ℕ)
        tx := (m % a : ℕ)
        ty := (m / a % b : ℕ)
        xy := some (x0 + ((m % a : ℕ) : ℚ) * cw, y0 + ((m / a % b : ℕ) : ℚ) * ch)
        events := catBlocks (frameBlock a b x0 y0 cw ch off) (m + 1)
        tmp := catBlocks (tmpBlock a b) (m + 1) } := by
  have hab : 1 ≤ a * b := Nat.one_le_iff_ne_zero.mpr (by positivity)
  induction m with
  | zero =>
    show stepFrame _ _ _ _ _ _ _ initState = _
    rw [stepFrame, initState]
    have hcond : ¬((-1 : ℤ) + 1 = (a : ℤ)) := by omega
    simp only [hcond, if_false]
    simp [catBlocks, frameBlock, tmpBlock, Nat.zero_mod, Nat.zero_div]
  | succ m ih =>
    show stepFrame _ _ _ _ _ _ _ (runFrames _ _ _ _ _ _ _ (m + 1)) = _
    rw [ih]
    simp only [stepFrame]
    by_cases hA : m % a + 1 = a
    · have hmodA : (m + 1) % a = 0 := by rw [succ_mod_eq m a ha, if_pos hA]
      have hdivA : (m + 1) / a = m / a + 1 := by rw [succ_div_eq m a ha, if_pos hA]
      have hcA : ((m % a : ℕ) : ℤ) + 1 = (a : ℤ) := by omega
      by_cases hB : m / a % b + 1 = b
      · have hmodB : (m + 1) / a % b = 0 := by
          rw [hdivA, succ_mod_eq (m / a) b hb, if_pos hB]
        have hmodAB : (m + 1) % (a * b) = 0 :=
          (mod_mul_split (m + 1) a b ha hb).mpr ⟨hmodA, hmodB⟩
        have hABm : m % (a * b) + 1 = a * b := by
          have h1 := succ_mod_eq m (a * b) hab
          rw [hmodAB] at h1
          by_contra hc
          rw [if_neg hc] at h1
          omega
        have hdivAB : (m + 1) / (a * b) = m / (a * b) + 1 := by
          rw [succ_div_eq m (a * b) hab, if_pos hABm]
        have hne : m + 1 ≠ 0 ∧ (m + 1) % (a * b) = 0 := ⟨Nat.succ_ne_zero m, hmodAB⟩
        have hcB : ((m / a % b : ℕ) : ℤ) + 1 = (b : ℤ) := by omega
        rw [if_pos hcA, if_pos hcB]
        simp only []
        congr 1
        · omega
        · omega
        · omega
        · rw [hmodA, hmodB]
          simp [ratCast_intCast_natMod, ratCast_intCast_natDivMod]
        · rw [show catBlocks (frameBlock a b x0 y0 cw ch off) (m + 1 + 1) =
              catBlocks (frameBlock a b x0 y0 cw ch off) (m + 1) ++
                frameBlock a b x0 y0 cw ch off (m + 1) from rfl,
            frameBlock, if_pos hne, hmodA, hmodB, hdivAB]
          simp [List.append_assoc, add_sub_cancel_right, ratCast_intCast_natMod, ratCast_intCast_natDivMod]
        · rw [show catBlocks (tmpBlock a b) (m + 1 + 1) =
              catBlocks (tmpBlock a b) (m + 1) ++ tmpBlock a b (m + 1) from rfl,
            tmpBlock, hmodA, hmodB, hdivAB]
          simp [List.append_assoc, ratCast_intCast_natMod, ratCast_intCast_natDivMod]
      · have hmodB : (m + 1) / a % b = m / a % b + 1 := by
          rw [hdivA, succ_mod_eq (m / a) b hb, if_neg hB]
        have hmodAB : (m + 1) % (a * b) ≠ 0 := by
          intro hz
          have hsp := (mod_mul_split (m + 1) a b ha hb).mp hz
          omega
        have hdivAB : (m + 1) / (a * b) = m / (a * b) := by
          rw [succ_div_eq m (a * b) hab]
          by_cases hc : m % (a * b) + 1 = a * b
          · exfalso
            apply hmodAB
            rw [succ_mod_eq m (a * b) hab, if_pos hc]
          · rw [if_neg hc]
        have hne : ¬(m + 1 ≠ 0 ∧ (m + 1) % (a * b) = 0) := by
          push_neg
          intro _
          exact hmodAB
        have hcB : ¬(((m / a % b : ℕ) : ℤ) + 1 = (b : ℤ)) := by omega
        rw [if_pos hcA, if_neg hcB]
        simp only []
        congr 1
        · omega
        · omega
        · omega
        · rw [hmodA, hmodB]
          simp [ratCast_intCast_natMod, ratCast_intCast_natDivMod]
        · rw [show catBlocks (frameBlock a b x0 y0 cw ch off) (m + 1 + 1) =
              catBlocks (frameBlock a b x0 y0 cw ch off) (m + 1) ++
                frameBlock a b x0 y0 cw ch off (m + 1) from rfl,
            frameBlock, if_neg hne, hmodA, hmodB, hdivAB]
          simp [List.append_assoc, ratCast_intCast_natMod, ratCast_intCast_natDivMod]
        · rw [show catBlocks (tmpBlock a b) (m + 1 + 1) =
              catBlocks (tmpBlock a b) (m + 1) ++ tmpBlock a b (m + 1) from rfl,
            tmpBlock, hmodA, hmodB, hdivAB]
          simp [List.append_assoc, ratCast_intCast_natMod, ratCast_intCast_natDivMod]
    · have hmodA : (m + 1) % a = m % a + 1 := by rw [succ_mod_eq m a ha, if_neg hA]
      have hdivA : (m + 1) / a = m / a := by rw [succ_div_eq m a ha, if_neg hA]
      have hmodB : (m + 1) / a % b = m / a % b := by rw [hdivA]
      have hmodAB : (m + 1) % (a * b) ≠ 0 := by
        intro hz
        have hsp := (mod_mul_split (m + 1) a b ha hb).mp hz
        omega
      have hdivAB : (m + 1) / (a * b) = m / (a * b) := by
        rw [succ_div_eq m (a * b) hab]
        by_cases hc : m % (a * b) + 1 = a * b
        · exfalso
          apply hmodAB
          rw [succ_mod_eq m (a * b) hab, if_pos hc]
        · rw [if_neg hc]
      have hne : ¬(m + 1 ≠ 0 ∧ (m + 1) % (a * b) = 0) := by
        push_neg
        intro _
        exact hmodAB
      have hcA : ¬(((m % a : ℕ) : ℤ) + 1 = (a : ℤ)) := by omega
      rw [if_neg hcA]
      simp only []
      congr 1
      · omega
      · omega
      · omega
      · rw [hmodA, hmodB]
        simp [ratCast_intCast_natMod, ratCast_intCast_natDivMod]
      · rw [show catBlocks (frameBlock a b x0 y0 cw ch off) (m + 1 + 1) =
            catBlocks (frameBlock a b x0 y0 cw ch off) (m + 1) ++
              frameBlock a b x0 y0 cw ch off (m + 1) from rfl,
          frameBlock, if_neg hne, hmodA, hmodB, hdivAB]
        simp [List.append_assoc, ratCast_intCast_natMod, ratCast_intCast_natDivMod]
      · rw [show catBlocks (tmpBlock a b) (m + 1 + 1) =
            catBlocks (tmpBlock a b) (m + 1) ++ tmpBlock a b (m + 1) from rfl,
          tmpBlock, hmodA, hmodB, hdivAB]
        simp [List.append_assoc, ratCast_intCast_natMod, ratCast_intCast_natDivMod]


/-! ### Derived facts about the emitted command sequence -/

theorem places_append (l1 l2 : List Ev) :
    places (l1 ++ l2) = places l1 ++ places l2 :=
  List.filterMap_append l1 l2 _

theorem rasterPages_append (l1 l2 : List Ev) :
    rasterPages (l1 ++ l2) = rasterPages l1 ++ rasterPages l2 :=
  List.filterMap_append l1 l2 _

theorem places_frameBlock (a b : ℕ) (x0 y0 cw ch off : ℚ) (j : ℕ) :
    places (frameBlock a b x0 y0 cw ch off j) =
      [(j, ((j / (a * b) : ℕ) : ℤ), ((j % a : ℕ) : ℤ), ((j / a % b : ℕ) : ℤ))] := by
  rw [frameBlock]
  split_ifs <;> simp [places]

theorem rasterPages_frameBlock (a b : ℕ) (x0 y0 cw ch off : ℚ) (j : ℕ) :
    rasterPages (frameBlock a b x0 y0 cw ch off j) =
      if j ≠ 0 ∧ j % (a * b) = 0 then [((j / (a * b) : ℕ) : ℤ) - 1] else [] := by
  rw [frameBlock]
  split_ifs <;> simp [rasterPages]

/-- The placements the loop emits over `n` frames, in closed form: frame
`j` is placed on page `j / (a*b)`, column `j % a`, row `j / a % b`. -/
theorem places_catBlocks (a b : ℕ) (x0 y0 cw ch off : ℚ) (n : ℕ) :
    places (catBlocks (frameBlock a b x0 y0 cw ch off) n) =
      (List.range n).map
        (fun j => (j, ((j / (a * b) : ℕ) : ℤ), ((j % a : ℕ) : ℤ), ((j / a % b : ℕ) : ℤ))) := by
  induction n with
  | zero => rfl
  | succ n ih =>
    rw [show catBlocks (frameBlock a b x0 y0 cw ch off) (n + 1) =
        catBlocks (frameBlock a b x0 y0 cw ch off) n ++
          frameBlock a b x0 y0 cw ch off n from rfl,
      places_append, ih, places_frameBlock, List.range_succ, List.map_append]
    simp

/-- The pages whose raster grid the loop itself draws over `m + 1`
frames: exactly the fully completed pages `0, 1, ..., m / (a*b) - 1`,
in order (the raster of the page in progress is the business of the
trailing check, line 236). -/
theorem rasterPages_catBlocks (a b : ℕ) (ha : 1 ≤ a) (hb : 1 ≤ b)
    (x0 y0 cw ch off : ℚ) (m : ℕ) :
    rasterPages (catBlocks (frameBlock a b x0 y0 cw ch off) (m + 1)) =
      (List.range (m / (a * b))).map (Nat.cast : ℕ → ℤ) := by
  have hab : 1 ≤ a * b := Nat.one_le_iff_ne_zero.mpr (by positivity)
  induction m with
  | zero =>
    rw [show catBlocks (frameBlock a b x0 y0 cw ch off) 1 =
        [] ++ frameBlock a b x0 y0 cw ch off 0 from rfl]
    simp [rasterPages_frameBlock, Nat.zero_div]
  | succ m ih =>
    rw [show catBlocks (frameBlock a b x0 y0 cw ch off) (m + 1 + 1) =
        catBlocks (frameBlock a b x0 y0 cw ch off) (m + 1) ++
          frameBlock a b x0 y0 cw ch off (m + 1) from rfl,
      rasterPages_append, ih, rasterPages_frameBlock]
    by_cases hz : (m + 1) % (a * b) = 0
    · have hABm : m % (a * b) + 1 = a * b := by
        have h1 := succ_mod_eq m (a * b) hab
        rw [hz] at h1
        by_contra hc
        rw [if_neg hc] at h1
        omega
      have hdiv : (m + 1) / (a * b) = m / (a * b) + 1 := by
        rw [succ_div_eq m (a * b) hab, if_pos hABm]
      rw [if_pos ⟨Nat.succ_ne_zero m, hz⟩, hdiv, List.range_succ, List.map_append]
      simp [add_sub_cancel_right]
    · have hdiv : (m + 1) / (a * b) = m / (a * b) := by
        rw [succ_div_eq m (a * b) hab]
        by_cases hc : m % (a * b) + 1 = a * b
        · exfalso
          apply hz
          rw [succ_mod_eq m (a * b) hab, if_pos hc]
        · rw [if_neg hc]
      have hne : ¬(m + 1 ≠ 0 ∧ (m + 1) % (a * b) = 0) := by
        push_neg
        intro _
        exact hz
      rw [if_neg hne, hdiv, List.append_nil]

/-- Counting lemma: among `0, ..., n-1`, the numbers with `j / m = p`. -/
theorem length_filter_range_div (m p : ℕ) (hm : 1 ≤ m) (n : ℕ) :
    ((List.range n).filter (fun j => j / m = p)).length =
      min n ((p + 1) * m) - min n (p * m) := by
  induction n with
  | zero => simp
  | succ n ih =>
    rw [List.range_succ, List.filter_append, List.length_append, ih]
    by_cases h : n / m = p
    · have hpm : p * m ≤ n := by
        calc p * m = n / m * m := by rw [h]
        _ ≤ n := Nat.div_mul_le_self n m
      have hlt : n < (p + 1) * m := by
        have h2 : n % m < m := Nat.mod_lt _ (by omega)
        have h3 := Nat.div_add_mod n m
        calc n = m * (n / m) + n % m := h3.symm
        _ < m * (n / m) + m := by omega
        _ = (n / m + 1) * m := by ring
        _ = (p + 1) * m := by rw [h]
      have hfil : (List.filter (fun j => decide (j / m = p)) [n]).length = 1 := by
        simp [h]
      rw [hfil]
      have e1 : min n ((p + 1) * m) = n := min_eq_left (by omega)
      have e2 : min (n + 1) ((p + 1) * m) = n + 1 := min_eq_left (by omega)
      have e3 : min n (p * m) = p * m := min_eq_right hpm
      have e4 : min (n + 1) (p * m) = p * m := min_eq_right (by omega)
      rw [e1, e2, e3, e4]
      omega
    · have hfil : (List.filter (fun j => decide (j / m = p)) [n]).length = 0 := by
        simp [h]
      rw [hfil]
      by_cases hlt : n / m < p
      · have hn : n < p * m := (Nat.div_lt_iff_lt_mul (by omega)).mp hlt
        have hle : p * m ≤ (p + 1) * m := Nat.mul_le_mul_right m (by omega)
        have e1 : min n ((p + 1) * m) = n := min_eq_left (by omega)
        have e2 : min (n + 1) ((p + 1) * m) = n + 1 := min_eq_left (by omega)
        have e3 : min n (p * m) = n := min_eq_left (by omega)
        have e4 : min (n + 1) (p * m) = n + 1 := min_eq_left (by omega)
        rw [e1, e2, e3, e4]
        omega
      · have hge : p + 1 ≤ n / m := by omega
        have hn : (p + 1) * m ≤ n := (Nat.le_div_iff_mul_le (by omega)).mp hge
        have hle : p * m ≤ (p + 1) * m := Nat.mul_le_mul_right m (by omega)
        have e1 : min n ((p + 1) * m) = (p + 1) * m := min_eq_right hn
        have e2 : min (n + 1) ((p + 1) * m) = (p + 1) * m := min_eq_right (by omega)
        have e3 : min n (p * m) = p * m := min_eq_right (by omega)
        have e4 : min (n + 1) (p * m) = p * m := min_eq_right (by omega)
        rw [e1, e2, e3, e4]
        omega

/-! ### The claims -/

/-- Claim C1 (code bug in the source): the target frame rate used by
`process` should equal the `--fps` value, but the call in `main` (lines
268-274) never forwards `args.fps`, so `process` runs with its default
`fps = 10` (line 117).  Concretely: with `--fps 25` and a 25 fps video
the claim demands no transcoding, yet the code calls `process` with
`fps = 10`, compares 10 with the native 25 and transcodes. -/
theorem C1_fps_not_forwarded :
    c1Cli.fps = 25 ∧ stdArgs.fps = 10 ∧
    mainRun c1Cli (SourceKind.video 25) c1Oracle =
      (MainResult.ran stdArgs, some ⟨Outcome.ok, [], true, 2⟩) := by
  with_unfolding_all decide

/-- Claim C2 counterexample: with paper a4 and margins 10 the printable
area 277x190 is strictly positive, but `height_mm = 300` makes both tile
counts zero — and the run does not fail before frame processing: the
planner succeeds with `nx = ny = 0` and one frame is placed, the run
completing normally. -/
theorem C2_counterexample :
    (planGeometry "a4" ⟨10, 10, 10, 10⟩ 300 15 200 ⟨16, 9⟩).map (fun p => (p.nx, p.ny)) =
      some (0, 0) ∧
    process SourceKind.gif c2Oracle c2Args =
      { outcome := Outcome.ok, filesLeft := [], transcoded := false, framesPlaced := 1 } := by
  with_unfolding_all decide

/-- Claim C2 (amended): the source performs no tile-count validation;
the planner succeeds exactly when the paper key is known, regardless of
`nx` or `ny` being zero, and the run then proceeds to place frames (as
the counterexample shows). -/
theorem C2_no_zero_tile_validation (key : String) (m : Margin) (h off dpi : ℚ)
    (cs : Size) :
    (planGeometry key m h off dpi cs).isSome = (PAPER_SIZES (pyLower key)).isSome := by
  rw [planGeometry]
  cases PAPER_SIZES (pyLower key) <;> rfl

/-- Claim C3 counterexample: a run whose `pdf.output` call fails ends
with the per-tile temporary file still on disk; the cleanup loop of
lines 244-245 follows `pdf.output` sequentially and is never reached on
this failure path. -/
theorem C3_counterexample :
    (process SourceKind.gif c3Oracle stdArgs).outcome = Outcome.outputError ∧
    (process SourceKind.gif c3Oracle stdArgs).filesLeft = [TmpFile.tileImage 0 0 0] ∧
    (process SourceKind.gif c3Oracle stdArgs).filesLeft ≠ [] := by
  with_unfolding_all decide

theorem processGeom_ok_filesLeft (tf : List TmpFile) (dt : Bool) (orc : Oracle)
    (a : Args) (hok : (processGeom tf dt orc a).outcome = Outcome.ok) :
    (processGeom tf dt orc a).filesLeft = [] := by
  unfold processGeom at hok ⊢
  cases hplan : planGeometry a.paper_format a.margins a.height_mm a.offset a.dpi
      orc.clipSize with
  | none =>
    rw [hplan] at hok
    simp at hok
  | some p =>
    rw [hplan] at hok
    simp only [] at hok ⊢
    cases hdf : orc.decodeFailed with
    | true =>
      rw [hdf] at hok
      simp at hok
    | false =>
      rw [hdf] at hok
      simp only [Bool.false_eq_true, if_false] at hok ⊢
      cases hxy : (runFrames p.nx p.ny a.margins.left a.margins.top p.total.width
          p.total.height a.offset orc.decoded).xy with
      | none =>
        rw [hxy] at hok
        simp at hok
      | some q =>
        rw [hxy] at hok
        cases hsv : orc.saveOk with
        | true => simp
        | false =>
          rw [hsv] at hok
          simp at hok

/-- Claim C3 (amended): all temporary files are removed on the normal
completion path — whenever `process` ends with outcome `ok` the disk is
clean — while on the failure exit paths (decode, transcode, output
errors and the unbound-local error) the files accumulated so far remain
on disk, as the counterexample shows. -/
theorem C3_cleanup_only_on_success (kind : SourceKind) (orc : Oracle) (a : Args)
    (hok : (process kind orc a).outcome = Outcome.ok) :
    (process kind orc a).filesLeft = [] := by
  cases kind with
  | gif => exact processGeom_ok_filesLeft [] false orc a hok
  | video f =>
    rw [process] at hok ⊢
    by_cases hf : a.fps ≠ f
    · rw [if_pos hf] at hok ⊢
      cases htr : orc.transcodeOk with
      | true =>
        rw [htr] at hok
        rw [if_pos rfl] at hok ⊢
        exact processGeom_ok_filesLeft [TmpFile.transcodedVideo] true orc a hok
      | false =>
        rw [htr] at hok
        simp at hok
    · rw [if_neg hf] at hok ⊢
      exact processGeom_ok_filesLeft [] false orc a hok

theorem C3_cleanup_only_on_success_witness :
    (process SourceKind.gif c3OkOracle stdArgs).outcome = Outcome.ok ∧
    (process SourceKind.gif c3OkOracle stdArgs).filesLeft = [] :=
  ⟨by with_unfolding_all decide,
   C3_cleanup_only_on_success SourceKind.gif c3OkOracle stdArgs
     (by with_unfolding_all decide)⟩

/-- Claim C4: with tile counts `nx = a ≥ 1`, `ny = b ≥ 1`, the positive
printable-area origin of every actual run (margins are hardcoded to 10),
nonnegative cell sizes and a non-empty frame sequence, the emitted trace
is exactly the per-frame blocks followed by one trailing raster for the
page of the last frame, and the raster grids drawn are exactly one per
touched page `0, ..., (n-1)/(a*b)`, in page order: the raster of each
full page appears in the command stream right after the last placement
of that page and before the first placement of the next one (`frameBlock`
places the raster ahead of the placement of the first frame of the next
page), a partially filled trailing page gets its raster once at
end-of-stream, and no raster is drawn for a page without placements. -/
theorem C4_raster_once_per_page (a b n : ℕ) (x0 y0 cw ch off : ℚ)
    (ha : 1 ≤ a) (hb : 1 ≤ b) (hn : 1 ≤ n)
    (hx0 : 0 < x0) (hy0 : 0 < y0) (hcw : 0 ≤ cw) (hch : 0 ≤ ch) :
    endEvents (runFrames (a : ℤ) (b : ℤ) x0 y0 cw ch off n) =
      Except.ok (catBlocks (frameBlock a b x0 y0 cw ch off) n ++
        [Ev.raster (((n - 1) / (a * b) : ℕ) : ℤ)]) ∧
    rasterPages (catBlocks (frameBlock a b x0 y0 cw ch off) n ++
        [Ev.raster (((n - 1) / (a * b) : ℕ) : ℤ)]) =
      (List.range ((n - 1) / (a * b) + 1)).map (Nat.cast : ℕ → ℤ) := by
  obtain ⟨m, rfl⟩ : ∃ m, n = m + 1 := ⟨n - 1, by omega⟩
  simp only [Nat.add_sub_cancel]
  rw [runFrames_closed a b ha hb x0 y0 cw ch off m]
  have hxne : x0 + ((m % a : ℕ) : ℚ) * cw ≠ 0 := by
    have h1 : (0 : ℚ) ≤ ((m % a : ℕ) : ℚ) * cw := mul_nonneg (Nat.cast_nonneg _) hcw
    have h2 : 0 < x0 + ((m % a : ℕ) : ℚ) * cw := by linarith
    exact ne_of_gt h2
  have hyne : y0 + ((m / a % b : ℕ) : ℚ) * ch ≠ 0 := by
    have h1 : (0 : ℚ) ≤ ((m / a % b : ℕ) : ℚ) * ch := mul_nonneg (Nat.cast_nonneg _) hch
    have h2 : 0 < y0 + ((m / a % b : ℕ) : ℚ) * ch := by linarith
    exact ne_of_gt h2
  constructor
  · rw [endEvents]
    simp only []
    rw [if_pos ⟨hyne, hxne⟩]
  · rw [rasterPages_append, rasterPages_catBlocks a b ha hb x0 y0 cw ch off m,
      List.range_succ, List.map_append]
    simp [rasterPages]

theorem C4_raster_once_per_page_witness :
    (endEvents (runFrames ((2 : ℕ) : ℤ) ((2 : ℕ) : ℤ) 10 10 68 30 15 5) =
      Except.ok (catBlocks (frameBlock 2 2 10 10 68 30 15) 5 ++
        [Ev.raster (((5 - 1) / (2 * 2) : ℕ) : ℤ)])) ∧
    rasterPages (catBlocks (frameBlock 2 2 10 10 68 30 15) 5 ++
        [Ev.raster (((5 - 1) / (2 * 2) : ℕ) : ℤ)]) =
      (List.range ((5 - 1) / (2 * 2) + 1)).map (Nat.cast : ℕ → ℤ) :=
  C4_raster_once_per_page 2 2 5 10 10 68 30 15 (by norm_num) (by norm_num)
    (by norm_num) (by norm_num) (by norm_num) (by norm_num) (by norm_num)

/-- Claim C5: with tile counts `a, b ≥ 1`, the placements emitted over a
run of `n` frames are, in order, frames `0, 1, ..., n-1` — the global
index starts at 0 and increases by exactly 1 per placed frame, with no
gaps or repeats — and frame `j` lands on page `j/(a*b)`, tile column
`j % a` (advancing fastest) and tile row `j/a % b`: row-major order.
Moreover every full page `p` receives exactly `a*b` placements. -/
theorem C5_rowmajor_pagination (a b : ℕ) (x0 y0 cw ch off : ℚ) (n : ℕ)
    (ha : 1 ≤ a) (hb : 1 ≤ b) :
    places (runFrames (a : ℤ) (b : ℤ) x0 y0 cw ch off n).events =
      (List.range n).map
        (fun j => (j, ((j / (a * b) : ℕ) : ℤ), ((j % a : ℕ) : ℤ), ((j / a % b : ℕ) : ℤ))) ∧
    ∀ p : ℕ, (p + 1) * (a * b) ≤ n →
      ((places (runFrames (a : ℤ) (b : ℤ) x0 y0 cw ch off n).events).filter
        (fun t => t.2.1 = (p : ℤ))).length = a * b := by
  have hab : 1 ≤ a * b := Nat.one_le_iff_ne_zero.mpr (by positivity)
  have hmain : places (runFrames (a : ℤ) (b : ℤ) x0 y0 cw ch off n).events =
      (List.range n).map
        (fun j => (j, ((j / (a * b) : ℕ) : ℤ), ((j % a : ℕ) : ℤ), ((j / a % b : ℕ) : ℤ))) := by
    cases n with
    | zero => rfl
    | succ m =>
      rw [runFrames_closed a b ha hb x0 y0 cw ch off m]
      exact places_catBlocks a b x0 y0 cw ch off (m + 1)
  refine ⟨hmain, ?_⟩
  intro p hp
  rw [hmain, List.filter_map]
  rw [List.length_map]
  have hcong : ∀ j ∈ List.range n,
      ((fun t : ℕ × ℤ × ℤ × ℤ => decide (t.2.1 = (p : ℤ))) ∘
        (fun j => (j, ((j / (a * b) : ℕ) : ℤ), ((j % a : ℕ) : ℤ), ((j / a % b : ℕ) : ℤ)))) j =
      decide (j / (a * b) = p) := by
    intro j _
    exact decide_eq_decide.mpr Nat.cast_inj
  rw [List.filter_congr hcong, length_filter_range_div (a * b) p hab n]
  have e1 : min n ((p + 1) * (a * b)) = (p + 1) * (a * b) := min_eq_right hp
  have hle : p * (a * b) ≤ (p + 1) * (a * b) := Nat.mul_le_mul_right _ (by omega)
  have e2 : min n (p * (a * b)) = p * (a * b) := min_eq_right (by omega)
  rw [e1, e2]
  have e3 : (p + 1) * (a * b) = p * (a * b) + a * b := by ring
  omega

theorem C5_rowmajor_pagination_witness :
    (places (runFrames ((2 : ℕ) : ℤ) ((2 : ℕ) : ℤ) 10 10 68 30 15 5).events =
      (List.range 5).map
        (fun j => (j, ((j / (2 * 2) : ℕ) : ℤ), ((j % 2 : ℕ) : ℤ), ((j / 2 % 2 : ℕ) : ℤ)))) ∧
    ∀ p : ℕ, (p + 1) * (2 * 2) ≤ 5 →
      ((places (runFrames ((2 : ℕ) : ℤ) ((2 : ℕ) : ℤ) 10 10 68 30 15 5).events).filter
        (fun t => t.2.1 = (p : ℤ))).length = 2 * 2 :=
  C5_rowmajor_pagination 2 2 10 10 68 30 15 5 (by norm_num) (by norm_num)

/-- Claim C6: for paper "a4" (297x210 mm), margins of 10 mm on all four
sides, desired height 30 mm, native aspect ratio 16/9 and offset 15 mm
the planner yields printable area 277x190 mm, `frame_mm = (53.33, 30)`
within 0.01 (exactly `160/3`), `cell = (68.33, 30)` within 0.01 (exactly
`205/3`), `nx = 4`, `ny = 6`, hence 24 frames per full page. -/
theorem C6_geometry_scenario :
    planGeometry "a4" ⟨10, 10, 10, 10⟩ 30 15 200 ⟨16, 9⟩ = some planA4 ∧
    planA4.printable_area = ⟨277, 190⟩ ∧
    planA4.frame_mm.height = 30 ∧
    |planA4.frame_mm.width - 53.33| < 1 / 100 ∧
    planA4.total.height = 30 ∧
    |planA4.total.width - 68.33| < 1 / 100 ∧
    planA4.nx = 4 ∧ planA4.ny = 6 ∧ planA4.nx * planA4.ny = 24 := by
  with_unfolding_all decide

/-- Claim C7 counterexample: a GIF frame has its palette restored, is
pasted onto the running composite and converted to RGBA (lines 204-207),
but is never resampled — no `thumbnail` call occurs on the GIF branch,
so the frame is written to its temporary file at native size, not at the
planned pixel size. -/
theorem C7_counterexample :
    (convertFrame SourceKind.gif (419, 236)).any isResample = false := by
  decide

/-- Claim C7 (amended): only video-backed frames are resampled before
being written — the `thumbnail` call bounds them by the planned pixel
size `frame_px` (line 210) — while GIF composite frames are converted
without any resampling step. -/
theorem C7_only_video_resampled (f : ℚ) (px : ℤ × ℤ) :
    (convertFrame (SourceKind.video f) px).any isResample = true ∧
    ImgOp.thumbnail px.1 px.2 ∈ convertFrame (SourceKind.video f) px ∧
    (convertFrame SourceKind.gif px).any isResample = false := by
  refine ⟨rfl, ?_, rfl⟩
  simp [convertFrame]

/-- Claim C8 counterexample: at the a4 / 30 mm / 16:9 / 200 dpi scenario
the source computes the pixel frame width `int(53.33.../25.4*200) = 419`
by truncation, whereas the nearest-integer rounding the claim specifies
yields 420. -/
theorem C8_counterexample :
    planGeometry "a4" ⟨10, 10, 10, 10⟩ 30 15 200 ⟨16, 9⟩ = some planA4 ∧
    planA4.frame = (419, 236) ∧
    frame_px_spec planA4.frame_mm 200 = (420, 236) ∧
    planA4.frame ≠ frame_px_spec planA4.frame_mm 200 := by
  with_unfolding_all decide

/-- Claim C8 (amended): the pixel frame size is computed componentwise
as `int(frame_mm / 25.4 * dpi)` — truncation toward zero, i.e. the floor
for the nonnegative values arising here — not nearest-integer rounding
(the counterexample exhibits the difference). -/
theorem C8_frame_px_truncated (key : String) (m : Margin) (h off dpi : ℚ)
    (cs : Size) (p : TilingPlan)
    (hp : planGeometry key m h off dpi cs = some p)
    (hw : 0 ≤ p.frame_mm.width / 25.4 * dpi)
    (hh : 0 ≤ p.frame_mm.height / 25.4 * dpi) :
    p.frame = (⌊p.frame_mm.width / 25.4 * dpi⌋, ⌊p.frame_mm.height / 25.4 * dpi⌋) := by
  rw [planGeometry] at hp
  cases hps : PAPER_SIZES (pyLower key) with
  | none =>
    rw [hps] at hp
    exact absurd hp (by simp)
  | some paper =>
    rw [hps] at hp
    simp only [Option.some.injEq] at hp
    subst hp
    simp only [] at hw hh ⊢
    rw [pyInt, pyInt, if_pos hw, if_pos hh]

theorem C8_frame_px_truncated_witness :
    planA4.frame =
      (⌊planA4.frame_mm.width / 25.4 * 200⌋, ⌊planA4.frame_mm.height / 25.4 * 200⌋) :=
  C8_frame_px_truncated "a4" ⟨10, 10, 10, 10⟩ 30 15 200 ⟨16, 9⟩ planA4
    (by with_unfolding_all decide) (by with_unfolding_all decide)
    (by with_unfolding_all decide)

/-- Claim C9: a run given a paper key outside the catalog is stopped by
argparse itself — `--paper` has `choices=PAPER_CHOICES` (line 253), and
the catalog keys coincide with the choices — so the program exits
non-zero (argparse uses status 2 with a descriptive usage message)
before the media file is opened: no frame is decoded, no temporary file
is created and `process` is never invoked. -/
theorem C9_unknown_paper_rejected (c : CliArgs) (kind : SourceKind) (orc : Oracle)
    (hkey : PAPER_SIZES c.paper = none) :
    mainRun c kind orc = (MainResult.argparseError, none) := by
  have hmem : c.paper ∉ PAPER_CHOICES := by
    intro hmem
    rw [PAPER_CHOICES] at hmem
    simp only [List.mem_cons, List.mem_singleton, List.not_mem_nil, or_false] at hmem
    rcases hmem with h | h | h | h | h <;> rw [h] at hkey <;>
      exact absurd hkey (by with_unfolding_all decide)
  rw [mainRun, if_neg hmem]

theorem C9_unknown_paper_rejected_witness :
    PAPER_SIZES c9Cli.paper = none ∧
    mainRun c9Cli SourceKind.gif c1Oracle = (MainResult.argparseError, none) :=
  ⟨by with_unfolding_all decide,
   C9_unknown_paper_rejected c9Cli SourceKind.gif c1Oracle
     (by with_unfolding_all decide)⟩

/-- Claim C10: when the frame sequence yields zero frames the loop body
never runs, so `x` and `y` are never assigned and the trailing raster
check of line 236 raises the unbound-local error: the run fails before
`pdf.output` is called and before the cleanup loop runs — a transcoded
`tmp.mp4` created earlier in the run stays on disk. -/
theorem C10_zero_frames_unbound (orc : Oracle) (a : Args) (p : TilingPlan) (f : ℚ)
    (hdec : orc.decoded = 0) (hdf : orc.decodeFailed = false)
    (htr : orc.transcodeOk = true) (hf : a.fps ≠ f)
    (hplan : planGeometry a.paper_format a.margins a.height_mm a.offset a.dpi
      orc.clipSize = some p) :
    process (SourceKind.video f) orc a =
      { outcome := Outcome.unboundLocalError,
        filesLeft := [TmpFile.transcodedVideo],
        transcoded := true, framesPlaced := 0 } := by
  rw [process, if_pos hf, htr]
  simp only [if_true]
  rw [processGeom, hplan]
  simp only []
  rw [hdec, hdf]
  simp only [runFrames, initState, Bool.false_eq_true, if_false]
  rfl

theorem C10_zero_frames_unbound_witness :
    stdArgs.fps ≠ 25 ∧
    process (SourceKind.video 25) c10Oracle stdArgs =
      { outcome := Outcome.unboundLocalError,
        filesLeft := [TmpFile.transcodedVideo],
        transcoded := true, framesPlaced := 0 } :=
  ⟨by with_unfolding_all decide,
   C10_zero_frames_unbound c10Oracle stdArgs planA4 25 rfl rfl rfl
     (by with_unfolding_all decide) (by with_unfolding_all decide)⟩

end Flippy
